import Mathlib

/-!
Verification of the MovieLens 100K data cleaning and integration pipeline
(data_cleaning_complete.py) against its specification.

Tables are shallowly embedded as lists of records, pandas operations as
list functions.  Timestamps keep track of whether they are still raw
epoch seconds or have been converted to an instant, mirroring the dtype
of the pandas column.
-/

set_option autoImplicit false

namespace MovieLens

/-- A timestamp value: either raw epoch seconds (as loaded from u.data) or an
instant produced by the to_datetime conversion with unit seconds. -/
inductive TimeVal where
  | epoch (n : Int)
  | instant (n : Int)
deriving DecidableEq, Repr

/-- Conversion pd.to_datetime(col, unit=s): numeric epoch seconds become an
instant; a column that is already of datetime dtype is returned unchanged
(the datetime branch of to_datetime precedes the unit handling). -/
def to_datetime_s : TimeVal → TimeVal
  | .epoch n => .instant n
  | .instant n => .instant n

def TimeVal.isInstant : TimeVal → Bool
  | .epoch _ => false
  | .instant _ => true

def TimeVal.isEpoch : TimeVal → Bool
  | .epoch _ => true
  | .instant _ => false

/-- A row of the ratings table (u.data). -/
@[ext]
structure RatingRow where
  user_id : Int
  item_id : Int
  rating : Int
  timestamp : TimeVal
deriving DecidableEq, Repr

/-- A row of the items table (u.item).  The nineteen genre flag columns are
kept as separate integer fields in their declaration order.  The derived
columns release_year and genres are none until the items cleaner adds them. -/
@[ext]
structure ItemRow where
  item_id : Int
  movie_title : String
  release_date : Option Int
  video_release_date : Option String
  IMDb_URL : Option String
  unknown : Int
  Action : Int
  Adventure : Int
  Animation : Int
  Childrens : Int
  Comedy : Int
  Crime : Int
  Documentary : Int
  Drama : Int
  Fantasy : Int
  FilmNoir : Int
  Horror : Int
  Musical : Int
  Mystery : Int
  Romance : Int
  SciFi : Int
  Thriller : Int
  War : Int
  Western : Int
  release_year : Option Int := none
  genres : Option String := none

/-- A row of the users table (u.user).  The derived column age_group is none
until the users cleaner adds it. -/
@[ext]
structure UserRow where
  user_id : Int
  age : Int
  gender : String
  occupation : String
  zip_code : String
  age_group : Option String := none
deriving DecidableEq, Repr

/-! ### drop_duplicates -/

/-- Helper for dedupBy: keep a row when its key has not been seen yet. -/
def dedupByAux {α β : Type} [DecidableEq β] (key : α → β) : List α → List β → List α
  | [], _ => []
  | x :: xs, seen =>
      if key x ∈ seen then dedupByAux key xs seen
      else x :: dedupByAux key xs (key x :: seen)

/-- pandas drop_duplicates keeping the first occurrence of each key.
With key = id this is full-row deduplication; with a field projection it is
drop_duplicates(subset=[k]). -/
def dedupBy {α β : Type} [DecidableEq β] (key : α → β) (l : List α) : List α :=
  dedupByAux key l []

/-! ### Python string normalisation (ASCII fragment used by the pipeline) -/

/-- Whitespace characters removed by the Python str.strip method. -/
def isSpaceB (c : Char) : Bool :=
  c = ' ' || c = '\t' || c = '\n' || c = '\x0d' || c = '\x0b' || c = '\x0c'

def lstripL (l : List Char) : List Char := l.dropWhile isSpaceB

def rstripL (l : List Char) : List Char := (l.reverse.dropWhile isSpaceB).reverse

def pyStripL (l : List Char) : List Char := rstripL (lstripL l)

/-- Python str.strip(): remove leading and trailing whitespace. -/
def pyStrip (s : String) : String := ⟨pyStripL s.data⟩

/-- The twenty-six ASCII letter case pairs. -/
def casePairs : List (Char × Char) :=
  [('A','a'),('B','b'),('C','c'),('D','d'),('E','e'),('F','f'),('G','g'),
   ('H','h'),('I','i'),('J','j'),('K','k'),('L','l'),('M','m'),('N','n'),
   ('O','o'),('P','p'),('Q','q'),('R','r'),('S','s'),('T','t'),('U','u'),
   ('V','v'),('W','w'),('X','x'),('Y','y'),('Z','z')]

/-- Python str.lower on one character (ASCII fragment). -/
def lowerChar (c : Char) : Char :=
  match casePairs.find? (fun p => p.1 == c) with
  | some p => p.2
  | none => c

/-- Python str.upper on one character (ASCII fragment). -/
def upperChar (c : Char) : Char :=
  match casePairs.find? (fun p => p.2 == c) with
  | some p => p.1
  | none => c

/-- Python str.lower on a string. -/
def strLower (s : String) : String := ⟨s.data.map lowerChar⟩

/-- Python str.upper on a string. -/
def strUpper (s : String) : String := ⟨s.data.map upperChar⟩

/-! ### Ratings cleaner (clean_ratings_data) -/

/-- The validity test of the range filter: rating in [1, 5]. -/
def validRating (r : RatingRow) : Bool :=
  decide (1 ≤ r.rating) && decide (r.rating ≤ 5)

/-- The test selecting invalid rows: rating below 1 or above 5. -/
def invalidRating (r : RatingRow) : Bool :=
  decide (r.rating < 1) || decide (5 < r.rating)

/-- Timestamp conversion applied to one row. -/
def convert_timestamp (r : RatingRow) : RatingRow :=
  { r with timestamp := to_datetime_s r.timestamp }

/-- clean_ratings_data: drop full-row duplicates, then (when invalid rows
exist) keep only rows with rating in [1, 5], then convert the timestamp
column with to_datetime(unit=s). -/
def clean_ratings_data (ratings : List RatingRow) : List RatingRow :=
  let deduped := dedupBy id ratings
  let invalid := deduped.filter invalidRating
  let valid := if invalid.isEmpty then deduped else deduped.filter validRating
  valid.map convert_timestamp

/-! ### Items cleaner (clean_items_data) -/

/-- The genre columns, name and accessor, in their declaration order; the
first entry is the unknown flag. -/
def genre_cols : List (String × (ItemRow → Int)) :=
  [("unknown", ItemRow.unknown), ("Action", ItemRow.Action),
   ("Adventure", ItemRow.Adventure), ("Animation", ItemRow.Animation),
   ("Children\x27s", ItemRow.Childrens), ("Comedy", ItemRow.Comedy),
   ("Crime", ItemRow.Crime), ("Documentary", ItemRow.Documentary),
   ("Drama", ItemRow.Drama), ("Fantasy", ItemRow.Fantasy),
   ("Film-Noir", ItemRow.FilmNoir), ("Horror", ItemRow.Horror),
   ("Musical", ItemRow.Musical), ("Mystery", ItemRow.Mystery),
   ("Romance", ItemRow.Romance), ("Sci-Fi", ItemRow.SciFi),
   ("Thriller", ItemRow.Thriller), ("War", ItemRow.War),
   ("Western", ItemRow.Western)]

/-- get_genres: walk the genre columns after the unknown flag in declaration
order, collect the names whose flag is 1, join them with a comma and a
space; when no flag is 1 the result is the literal Unknown. -/
def get_genres (row : ItemRow) : String :=
  match (genre_cols.drop 1).filterMap
      (fun p => if p.2 row = 1 then some p.1 else none) with
  | [] => "Unknown"
  | gs => String.intercalate ", " gs

/-- Numeric value of a decimal digit character. -/
def digitVal (c : Char) : Nat := c.toNat - 48

/-- str.extract with the pattern backslash-open-paren digit{4} backslash-
close-paren dollar followed by to_numeric: a title ending in an open paren,
four digits and a close paren yields that four digit number, anything else
yields none. -/
def extract_release_year (title : String) : Option Int :=
  match title.data.reverse with
  | ')' :: d1 :: d2 :: d3 :: d4 :: '(' :: _ =>
      if d1.isDigit && d2.isDigit && d3.isDigit && d4.isDigit then
        some ((digitVal d4 * 1000 + digitVal d3 * 100 +
               digitVal d2 * 10 + digitVal d1 : Nat) : Int)
      else none
  | _ => none

/-- The per-row transformation of the items cleaner: strip the title, then
derive release_year from the stripped title and genres from the flags.
The astype(int) coercion of the flag columns is the identity here because
the flags are already integers in the embedding. -/
def clean_item_row (r : ItemRow) : ItemRow :=
  let title := pyStrip r.movie_title
  { r with movie_title := title,
           release_year := extract_release_year title,
           genres := some (get_genres { r with movie_title := title }) }

/-- clean_items_data: drop duplicates by item_id (keeping the first
occurrence), then apply the per-row cleaning. -/
def clean_items_data (items : List ItemRow) : List ItemRow :=
  (dedupBy ItemRow.item_id items).map clean_item_row

/-! ### Users cleaner (clean_users_data) -/

/-- categorize_age, exactly the cascade of the source. -/
def categorize_age (age : Int) : String :=
  if age < 18 then "Under 18"
  else if age < 25 then "18-24"
  else if age < 35 then "25-34"
  else if age < 50 then "35-49"
  else if age < 65 then "50-64"
  else "65+"

/-- The per-row transformation of the users cleaner: occupation stripped and
lowered, gender uppered, age_group derived from age. -/
def clean_user_row (r : UserRow) : UserRow :=
  { r with occupation := strLower (pyStrip r.occupation),
           gender := strUpper r.gender,
           age_group := some (categorize_age r.age) }

/-- clean_users_data: drop duplicates by user_id (keeping the first
occurrence), then apply the per-row cleaning. -/
def clean_users_data (users : List UserRow) : List UserRow :=
  (dedupBy UserRow.user_id users).map clean_user_row

/-! ### Integrator (integrate_data) -/

/-- A row after the first merge: ratings extended with the selected item
columns.  Columns brought in by the left join are optional; a rating row
with no matching item gets none in all three. -/
structure MergedIRow where
  user_id : Int
  item_id : Int
  rating : Int
  timestamp : TimeVal
  movie_title : Option String
  release_year : Option Int
  genres : Option String

/-- A row of the final integrated table: ratings extended with the selected
item and user columns. -/
structure FinalRow where
  user_id : Int
  item_id : Int
  rating : Int
  timestamp : TimeVal
  movie_title : Option String
  release_year : Option Int
  genres : Option String
  age : Option Int
  gender : Option String
  occupation : Option String
  age_group : Option String

/-- Left merge of the ratings table with the selected item columns on
item_id: every rating row is paired with each matching item row in order,
or kept once with null columns when no item matches. -/
def merge_items (ratings : List RatingRow) (items : List ItemRow) :
    List MergedIRow :=
  ratings.flatMap (fun r =>
    match items.filter (fun it => it.item_id == r.item_id) with
    | [] => [{ user_id := r.user_id, item_id := r.item_id, rating := r.rating,
               timestamp := r.timestamp, movie_title := none,
               release_year := none, genres := none }]
    | ms => ms.map (fun it =>
        { user_id := r.user_id, item_id := r.item_id, rating := r.rating,
          timestamp := r.timestamp, movie_title := some it.movie_title,
          release_year := it.release_year, genres := it.genres }))

/-- Left merge of the intermediate table with the selected user columns on
user_id. -/
def merge_users (rows : List MergedIRow) (users : List UserRow) :
    List FinalRow :=
  rows.flatMap (fun m =>
    match users.filter (fun u => u.user_id == m.user_id) with
    | [] => [{ user_id := m.user_id, item_id := m.item_id, rating := m.rating,
               timestamp := m.timestamp, movie_title := m.movie_title,
               release_year := m.release_year, genres := m.genres,
               age := none, gender := none, occupation := none,
               age_group := none }]
    | ms => ms.map (fun u =>
        { user_id := m.user_id, item_id := m.item_id, rating := m.rating,
          timestamp := m.timestamp, movie_title := m.movie_title,
          release_year := m.release_year, genres := m.genres,
          age := some u.age, gender := some u.gender,
          occupation := some u.occupation, age_group := u.age_group }))

/-- integrate_data: start from the ratings table, left join the item
columns on item_id, then left join the user columns on user_id. -/
def integrate_data (ratings : List RatingRow) (items : List ItemRow)
    (users : List UserRow) : List FinalRow :=
  merge_users (merge_items ratings items) users

/-! ### Matrix builder (prepare_svd_data) -/

/-- The flat triple projection (user_id, item_id, rating) of the integrated
table. -/
def svd_data (final_data : List FinalRow) : List (Int × Int × Int) :=
  final_data.map (fun r => (r.user_id, r.item_id, r.rating))

/-- The ratings of all rows of the integrated table for one
(user_id, item_id) pair, in table order. -/
def ratings_for (final_data : List FinalRow) (u i : Int) : List Int :=
  (final_data.filter (fun r => r.user_id == u && r.item_id == i)).map
    FinalRow.rating

/-- One cell of the pivot table: pivot_table aggregates the values of a
group with its default aggregation, the arithmetic mean, and fillna(0)
turns an empty group into 0. -/
def pivot_cell (final_data : List FinalRow) (u i : Int) : ℚ :=
  match ratings_for final_data u i with
  | [] => 0
  | v :: vs => (((v :: vs).map (fun x => (x : ℚ))).sum : ℚ) / ((v :: vs).length : ℚ)

/-- The row index of the user-item matrix: the distinct user ids of the
integrated table. -/
def matrix_users (final_data : List FinalRow) : List Int :=
  dedupBy id (final_data.map FinalRow.user_id)

/-- The column index of the user-item matrix: the distinct item ids of the
integrated table. -/
def matrix_items (final_data : List FinalRow) : List Int :=
  dedupBy id (final_data.map FinalRow.item_id)

/-- nunique: the number of distinct values of a column. -/
def nunique (l : List Int) : Nat := (dedupBy id l).length

/-- The sparsity statistic of prepare_svd_data: one minus the ratio of
actual ratings to the product of the distinct user and item counts of the
triple list, expressed as a percentage. -/
def sparsity (final_data : List FinalRow) : ℚ :=
  let svd := svd_data final_data
  let total_possible : ℚ :=
    ((nunique (svd.map (fun t => t.1)) : ℚ) * (nunique (svd.map (fun t => t.2.1)) : ℚ))
  (1 - (svd.length : ℚ) / total_possible) * 100

/-! ### Loader (load_raw_data) -/

/-- A date. -/
structure PDate where
  year : Int
  month : Nat
  day : Nat
deriving DecidableEq, Repr

/-- Keep exactly the characters of the class [0-9A-Za-z-]. -/
def keepDateChar (c : Char) : Bool :=
  (('0' ≤ c && c ≤ '9') || ('A' ≤ c && c ≤ 'Z') || ('a' ≤ c && c ≤ 'z')
   || c == '-')

/-- The cleaned date string of the loader: str.strip, then the regex
replacement removing every character outside [0-9A-Za-z-]. -/
def clean_date_str (s : String) : String :=
  ⟨(pyStrip s).data.filter keepDateChar⟩

/-- Modelled from the spec: month names accepted by the date parser. -/
def monthNames : List (String × Nat) :=
  [("Jan", 1), ("Feb", 2), ("Mar", 3), ("Apr", 4), ("May", 5), ("Jun", 6),
   ("Jul", 7), ("Aug", 8), ("Sep", 9), ("Oct", 10), ("Nov", 11), ("Dec", 12)]

/-- A run of decimal digits read as a number; none when empty or when a
character is not a digit. -/
def parseNatDigits (cs : List Char) : Option Nat :=
  if cs = [] then none
  else if cs.all Char.isDigit then
    some (cs.foldl (fun a c => a * 10 + digitVal c) 0)
  else none

/-- A whole string read as a decimal number. -/
def strToNat (s : String) : Option Nat := parseNatDigits s.data

/-- Splitting a character list on the dash character. -/
def splitDashAux : List Char → List Char → List String
  | [], acc => [String.mk acc.reverse]
  | c :: cs, acc =>
      if c = '-' then String.mk acc.reverse :: splitDashAux cs []
      else splitDashAux cs (c :: acc)

/-- Splitting a string on the dash character. -/
def splitDash (s : String) : List String := splitDashAux s.data []

/-- Modelled from the spec: a month field, either a month name or a number
from 1 to 12. -/
def parseMonth (s : String) : Option Nat :=
  match monthNames.find? (fun p => p.1 == s) with
  | some p => some p.2
  | none => (strToNat s).bind (fun n => if 1 ≤ n ∧ n ≤ 12 then some n else none)

/-- Modelled from the spec: the to_datetime parsing step with dayfirst,
which is not part of the repository source.  A value of the form
day-month-year (month a name or a number, the day number before the
month) yields a date; any other value yields none. -/
def parseDateDayfirst (s : String) : Option PDate :=
  match splitDash s with
  | [d, m, y] =>
      (strToNat d).bind (fun dd =>
        (parseMonth m).bind (fun mm =>
          (strToNat y).bind (fun yy =>
            if 1 ≤ dd ∧ dd ≤ 31 then some ⟨(yy : Int), mm, dd⟩ else none)))
  | _ => none

/-- The release_date treatment of the loader: strip and filter the raw
string, then parse it as a day-first date, with none on any failure. -/
def parse_release_date (s : String) : Option PDate :=
  parseDateDayfirst (clean_date_str s)

/-- Modelled from the spec: the load failure modes.  A required file that
is absent or a file whose rows do not match the declared column count of
the fixed schema is a LoadError. -/
inductive LoadError where
  | missingFile (name : String)
  | schemaMismatch (name : String)
deriving DecidableEq, Repr

/-- The file system visible to the loader: the three input files, each
either absent or a list of rows of string fields (the separator splitting
is abstracted away). -/
structure FS where
  u_data : Option (List (List String))
  u_item : Option (List (List String))
  u_user : Option (List (List String))

/-- Integer reading of a field; fields that are not numerals are out of
scope of the claims and read as 0. -/
def readInt (s : String) : Int := s.toInt?.getD 0

/-- Modelled from the spec: reading one table checks that the file is
present and that every row has exactly the arity of the declared schema,
and fails with a LoadError otherwise. -/
def loadTable (name : String) (content : Option (List (List String)))
    (arity : Nat) : Except LoadError (List (List String)) :=
  match content with
  | none => .error (.missingFile name)
  | some rows =>
      if rows.all (fun row => row.length == arity) then .ok rows
      else .error (.schemaMismatch name)

/-- Build a rating row from the four fields of a u.data row. -/
def mkRatingRow (row : List String) : RatingRow :=
  { user_id := readInt (row.getD 0 ""), item_id := readInt (row.getD 1 ""),
    rating := readInt (row.getD 2 ""),
    timestamp := .epoch (readInt (row.getD 3 "")) }

/-- Build an item row from the twenty-four fields of a u.item row; the
release_date field goes through the strip-filter-parse treatment and the
day number of the parsed date is retained as its value. -/
def mkItemRow (row : List String) : ItemRow :=
  { item_id := readInt (row.getD 0 ""), movie_title := row.getD 1 "",
    release_date := (parse_release_date (row.getD 2 "")).map
      (fun d => d.year * 10000 + (d.month : Int) * 100 + (d.day : Int)),
    video_release_date := some (row.getD 3 ""),
    IMDb_URL := some (row.getD 4 ""),
    unknown := readInt (row.getD 5 ""), Action := readInt (row.getD 6 ""),
    Adventure := readInt (row.getD 7 ""), Animation := readInt (row.getD 8 ""),
    Childrens := readInt (row.getD 9 ""), Comedy := readInt (row.getD 10 ""),
    Crime := readInt (row.getD 11 ""), Documentary := readInt (row.getD 12 ""),
    Drama := readInt (row.getD 13 ""), Fantasy := readInt (row.getD 14 ""),
    FilmNoir := readInt (row.getD 15 ""), Horror := readInt (row.getD 16 ""),
    Musical := readInt (row.getD 17 ""), Mystery := readInt (row.getD 18 ""),
    Romance := readInt (row.getD 19 ""), SciFi := readInt (row.getD 20 ""),
    Thriller := readInt (row.getD 21 ""), War := readInt (row.getD 22 ""),
    Western := readInt (row.getD 23 "") }

/-- Build a user row from the five fields of a u.user row. -/
def mkUserRow (row : List String) : UserRow :=
  { user_id := readInt (row.getD 0 ""), age := readInt (row.getD 1 ""),
    gender := row.getD 2 "", occupation := row.getD 3 "",
    zip_code := row.getD 4 "" }

/-- load_raw_data: read the three tables against their fixed schemas
(u.data has 4 columns, u.item has 24, u.user has 5); the first failure
aborts the load. -/
def load_raw_data (fs : FS) :
    Except LoadError (List RatingRow × List ItemRow × List UserRow) :=
  match loadTable "u.data" fs.u_data 4 with
  | .error e => .error e
  | .ok datRows =>
      match loadTable "u.item" fs.u_item 24 with
      | .error e => .error e
      | .ok itemRows =>
          match loadTable "u.user" fs.u_user 5 with
          | .error e => .error e
          | .ok userRows =>
              .ok (datRows.map mkRatingRow, itemRows.map mkItemRow,
                userRows.map mkUserRow)

/-- The whole pipeline: load, clean each table, integrate, project the
triples.  A LoadError aborts the run before any output exists. -/
def run_pipeline (fs : FS) :
    Except LoadError (List FinalRow × List (Int × Int × Int)) :=
  match load_raw_data fs with
  | .error e => .error e
  | .ok (ratings, items, users) =>
      let final_data := integrate_data (clean_ratings_data ratings)
        (clean_items_data items) (clean_users_data users)
      .ok (final_data, svd_data final_data)

/-! ### Lemmas about dedupBy -/

theorem mem_of_mem_dedupByAux {α β : Type} [DecidableEq β] (key : α → β)
    (l : List α) (seen : List β) (x : α) (hx : x ∈ dedupByAux key l seen) :
    x ∈ l := by
  induction l generalizing seen with
  | nil => exact hx
  | cons a t ih =>
      simp only [dedupByAux] at hx
      split at hx
      · exact List.mem_cons_of_mem a (ih _ hx)
      · rcases List.mem_cons.mp hx with h | h
        · simp [h]
        · exact List.mem_cons_of_mem a (ih _ h)

theorem mem_of_mem_dedupBy {α β : Type} [DecidableEq β] (key : α → β)
    (l : List α) (x : α) (hx : x ∈ dedupBy key l) : x ∈ l :=
  mem_of_mem_dedupByAux key l [] x hx

theorem dedupByAux_key_nodup {α β : Type} [DecidableEq β] (key : α → β)
    (l : List α) (seen : List β) :
    ((dedupByAux key l seen).map key).Nodup ∧
      ∀ b ∈ (dedupByAux key l seen).map key, b ∉ seen := by
  induction l generalizing seen with
  | nil => simp [dedupByAux]
  | cons a t ih =>
      simp only [dedupByAux]
      split
      · exact ih seen
      · rename_i hnot
        obtain ⟨hnd, hnotin⟩ := ih (key a :: seen)
        refine ⟨?_, ?_⟩
        · simp only [List.map_cons, List.nodup_cons]
          exact ⟨fun hmem => hnotin _ hmem (List.mem_cons_self _ _), hnd⟩
        · intro b hb
          simp only [List.map_cons, List.mem_cons] at hb
          rcases hb with h | h
          · subst h; exact hnot
          · exact fun hseen => hnotin b h (List.mem_cons_of_mem _ hseen)

theorem dedupBy_key_nodup {α β : Type} [DecidableEq β] (key : α → β)
    (l : List α) : ((dedupBy key l).map key).Nodup :=
  (dedupByAux_key_nodup key l []).1

theorem dedupByAux_eq_self {α β : Type} [DecidableEq β] (key : α → β)
    (l : List α) (seen : List β) (hnd : (l.map key).Nodup)
    (hdisj : ∀ b ∈ l.map key, b ∉ seen) : dedupByAux key l seen = l := by
  induction l generalizing seen with
  | nil => simp [dedupByAux]
  | cons a t ih =>
      simp only [List.map_cons, List.nodup_cons] at hnd
      simp only [dedupByAux]
      rw [if_neg (hdisj (key a) (by simp))]
      congr 1
      refine ih _ hnd.2 ?_
      intro b hb
      intro hmem
      rcases List.mem_cons.mp hmem with h | h
      · subst h; exact hnd.1 hb
      · exact hdisj b (List.mem_cons_of_mem _ hb) h

theorem dedupBy_eq_self {α β : Type} [DecidableEq β] (key : α → β)
    (l : List α) (hnd : (l.map key).Nodup) : dedupBy key l = l :=
  dedupByAux_eq_self key l [] hnd (by simp)

theorem dedupBy_idem {α β : Type} [DecidableEq β] (key : α → β) (l : List α) :
    dedupBy key (dedupBy key l) = dedupBy key l :=
  dedupBy_eq_self key _ (dedupBy_key_nodup key l)

theorem nodup_dedupBy_id {α : Type} [DecidableEq α] (l : List α) :
    (dedupBy id l).Nodup := by
  have h := dedupBy_key_nodup id l
  simpa using h

theorem mem_dedupByAux_id {α : Type} [DecidableEq α] (l : List α)
    (seen : List α) (x : α) (hx : x ∈ l) (hseen : x ∉ seen) :
    x ∈ dedupByAux id l seen := by
  induction l generalizing seen with
  | nil => cases hx
  | cons a t ih =>
      simp only [dedupByAux, id_eq]
      rcases List.mem_cons.mp hx with h | h
      · subst h
        split
        · rename_i hin
          exact absurd hin hseen
        · exact List.mem_cons_self _ _
      · split
        · exact ih _ h hseen
        · by_cases hxa : x = a
          · subst hxa; exact List.mem_cons_self _ _
          · exact List.mem_cons_of_mem _ (ih _ h (by
              intro hmem
              rcases List.mem_cons.mp hmem with h1 | h1
              · exact hxa h1
              · exact hseen h1))

theorem mem_dedupBy_id {α : Type} [DecidableEq α] (l : List α) (x : α) :
    x ∈ dedupBy id l ↔ x ∈ l :=
  ⟨mem_of_mem_dedupBy id l x, fun hx => mem_dedupByAux_id l [] x hx (by simp)⟩

/-! ### Lemmas about the Python string helpers -/

theorem dropWhile_dropWhile {α : Type} (p : α → Bool) (l : List α) :
    (l.dropWhile p).dropWhile p = l.dropWhile p := by
  induction l with
  | nil => rfl
  | cons a t ih =>
      by_cases h : p a
      · simp [List.dropWhile_cons, h, ih]
      · simp [List.dropWhile_cons, h]

theorem head?_of_front_part {α : Type} {x y : List α} (h : x <+: y)
    (hne : x ≠ []) : x.head? = y.head? := by
  obtain ⟨t, rfl⟩ := h
  cases x with
  | nil => cases hne rfl
  | cons a s => rfl

theorem dropWhile_eq_self_of_head? {α : Type} (p : α → Bool) (l : List α)
    (h : ∀ a, l.head? = some a → p a = false) : l.dropWhile p = l := by
  cases l with
  | nil => rfl
  | cons a t => simp [List.dropWhile_cons, h a rfl]

theorem head?_dropWhile_false {α : Type} (p : α → Bool) (l : List α) (a : α)
    (h : (l.dropWhile p).head? = some a) : p a = false := by
  induction l with
  | nil => cases h
  | cons b t ih =>
      by_cases hb : p b
      · rw [List.dropWhile_cons, if_pos hb] at h
        exact ih h
      · rw [List.dropWhile_cons, if_neg hb] at h
        simp only [List.head?_cons, Option.some.injEq] at h
        subst h
        simpa using hb

theorem reverse_front_of_suffix {α : Type} {x y : List α} (h : x <:+ y) :
    x.reverse <+: y.reverse := by
  obtain ⟨t, rfl⟩ := h
  exact ⟨t.reverse, by simp⟩

theorem lstripL_idem (l : List Char) : lstripL (lstripL l) = lstripL l :=
  dropWhile_dropWhile isSpaceB l

theorem rstripL_idem (l : List Char) : rstripL (rstripL l) = rstripL l := by
  unfold rstripL
  rw [List.reverse_reverse, dropWhile_dropWhile]

theorem rstripL_front_part (l : List Char) : rstripL l <+: l := by
  have h := reverse_front_of_suffix
    (List.dropWhile_suffix (l := l.reverse) isSpaceB)
  simpa [rstripL] using h

theorem lstripL_rstripL (l : List Char) (h : lstripL l = l) :
    lstripL (rstripL l) = rstripL l := by
  apply dropWhile_eq_self_of_head?
  intro a ha
  have hne : rstripL l ≠ [] := by
    intro he
    rw [he] at ha
    cases ha
  have hhead : (rstripL l).head? = l.head? :=
    head?_of_front_part (rstripL_front_part l) hne
  rw [hhead] at ha
  have hla : (lstripL l).head? = some a := by rw [h]; exact ha
  exact head?_dropWhile_false isSpaceB l a hla

theorem pyStripL_idem (l : List Char) : pyStripL (pyStripL l) = pyStripL l := by
  show rstripL (lstripL (rstripL (lstripL l))) = rstripL (lstripL l)
  rw [lstripL_rstripL (lstripL l) (lstripL_idem l), rstripL_idem]

theorem pyStrip_idem (s : String) : pyStrip (pyStrip s) = pyStrip s :=
  congrArg String.mk (pyStripL_idem s.data)

theorem casePairs_snd_not_key :
    ∀ p ∈ casePairs, casePairs.find? (fun q => q.1 == p.2) = none := by decide

theorem casePairs_fst_not_val :
    ∀ p ∈ casePairs, casePairs.find? (fun q => q.2 == p.1) = none := by decide

theorem casePairs_no_space :
    ∀ p ∈ casePairs, isSpaceB p.1 = false ∧ isSpaceB p.2 = false := by decide

theorem lowerChar_idem (c : Char) : lowerChar (lowerChar c) = lowerChar c := by
  cases hf : casePairs.find? (fun p => p.1 == c) with
  | none =>
      have h1 : lowerChar c = c := by unfold lowerChar; rw [hf]
      rw [h1]
      exact h1
  | some p =>
      have hp : p ∈ casePairs := List.mem_of_find?_eq_some hf
      have h1 : lowerChar c = p.2 := by unfold lowerChar; rw [hf]
      rw [h1]
      unfold lowerChar
      rw [casePairs_snd_not_key p hp]

theorem upperChar_idem (c : Char) : upperChar (upperChar c) = upperChar c := by
  cases hf : casePairs.find? (fun p => p.2 == c) with
  | none =>
      have h1 : upperChar c = c := by unfold upperChar; rw [hf]
      rw [h1]
      exact h1
  | some p =>
      have hp : p ∈ casePairs := List.mem_of_find?_eq_some hf
      have h1 : upperChar c = p.1 := by unfold upperChar; rw [hf]
      rw [h1]
      unfold upperChar
      rw [casePairs_fst_not_val p hp]

theorem isSpaceB_lowerChar (c : Char) : isSpaceB (lowerChar c) = isSpaceB c := by
  cases hf : casePairs.find? (fun p => p.1 == c) with
  | none =>
      have h1 : lowerChar c = c := by unfold lowerChar; rw [hf]
      rw [h1]
  | some p =>
      have hp : p ∈ casePairs := List.mem_of_find?_eq_some hf
      have hc : p.1 = c := by
        have := List.find?_some hf
        simpa using this
      have h1 : lowerChar c = p.2 := by unfold lowerChar; rw [hf]
      rw [h1, ← hc, (casePairs_no_space p hp).1, (casePairs_no_space p hp).2]

theorem strLower_idem (s : String) : strLower (strLower s) = strLower s := by
  show String.mk ((s.data.map lowerChar).map lowerChar)
      = String.mk (s.data.map lowerChar)
  rw [List.map_map, funext lowerChar_idem (f := lowerChar ∘ lowerChar)]

theorem strUpper_idem (s : String) : strUpper (strUpper s) = strUpper s := by
  show String.mk ((s.data.map upperChar).map upperChar)
      = String.mk (s.data.map upperChar)
  rw [List.map_map, funext upperChar_idem (f := upperChar ∘ upperChar)]

theorem pyStripL_map_lowerChar (l : List Char) :
    pyStripL (l.map lowerChar) = (pyStripL l).map lowerChar := by
  have hpf : isSpaceB ∘ lowerChar = isSpaceB := funext isSpaceB_lowerChar
  simp only [pyStripL, lstripL, rstripL, List.dropWhile_map, hpf,
    ← List.map_reverse]

theorem pyStrip_strLower_pyStrip (s : String) :
    pyStrip (strLower (pyStrip s)) = strLower (pyStrip s) := by
  show String.mk (pyStripL ((pyStripL s.data).map lowerChar))
      = String.mk ((pyStripL s.data).map lowerChar)
  rw [pyStripL_map_lowerChar, pyStripL_idem]

/-! ### Structural lemmas about the cleaners -/

theorem valid_of_not_invalid (r : RatingRow) (h : invalidRating r = false) :
    validRating r = true := by
  simp only [invalidRating, Bool.or_eq_false_iff, decide_eq_false_iff_not,
    not_lt] at h
  simp only [validRating, Bool.and_eq_true, decide_eq_true_eq]
  omega

/-- The conditional range filter of the source is extensionally the plain
filter: when no row is invalid, filtering by validity changes nothing. -/
theorem clean_ratings_data_eq (l : List RatingRow) :
    clean_ratings_data l
      = ((dedupBy id l).filter validRating).map convert_timestamp := by
  simp only [clean_ratings_data]
  by_cases h : ((dedupBy id l).filter invalidRating).isEmpty
  · rw [if_pos h]
    congr 1
    symm
    rw [List.filter_eq_self]
    intro a ha
    rw [List.isEmpty_iff] at h
    have hnone := List.filter_eq_nil_iff.mp h a ha
    exact valid_of_not_invalid a (by simpa using hnone)
  · rw [if_neg h]

theorem convert_timestamp_rating (r : RatingRow) :
    (convert_timestamp r).rating = r.rating := rfl

theorem validRating_convert (r : RatingRow) :
    validRating (convert_timestamp r) = validRating r := rfl

theorem convert_timestamp_isInstant (r : RatingRow) :
    (convert_timestamp r).timestamp.isInstant = true := by
  cases ht : r.timestamp <;>
    simp [convert_timestamp, to_datetime_s, TimeVal.isInstant, ht]

theorem convert_timestamp_eq_self (r : RatingRow)
    (h : r.timestamp.isInstant = true) : convert_timestamp r = r := by
  cases r with
  | mk u i ra t =>
      cases t with
      | epoch n => simp [TimeVal.isInstant] at h
      | instant n => rfl

theorem convert_timestamp_inj_on_epoch (a b : RatingRow)
    (ha : a.timestamp.isEpoch = true) (hb : b.timestamp.isEpoch = true)
    (h : convert_timestamp a = convert_timestamp b) : a = b := by
  cases a with
  | mk u1 i1 r1 t1 =>
      cases b with
      | mk u2 i2 r2 t2 =>
          cases t1 with
          | instant n => simp [TimeVal.isEpoch] at ha
          | epoch n =>
              cases t2 with
              | instant m => simp [TimeVal.isEpoch] at hb
              | epoch m =>
                  simp only [convert_timestamp, to_datetime_s,
                    RatingRow.mk.injEq, TimeVal.instant.injEq] at h
                  simp [RatingRow.mk.injEq, TimeVal.epoch.injEq, h]

theorem mem_clean_ratings_data (l : List RatingRow) (x : RatingRow)
    (hx : x ∈ clean_ratings_data l) :
    ∃ s ∈ dedupBy id l, validRating s = true ∧ x = convert_timestamp s := by
  rw [clean_ratings_data_eq] at hx
  obtain ⟨s, hs, rfl⟩ := List.mem_map.mp hx
  obtain ⟨hmem, hvalid⟩ := List.mem_filter.mp hs
  exact ⟨s, hmem, hvalid, rfl⟩

theorem clean_ratings_data_nodup (l : List RatingRow)
    (h : ∀ r ∈ l, r.timestamp.isEpoch = true) :
    (clean_ratings_data l).Nodup := by
  rw [clean_ratings_data_eq]
  have hnd : ((dedupBy id l).filter validRating).Nodup :=
    (nodup_dedupBy_id l).filter validRating
  refine List.Nodup.map_on ?_ hnd
  intro a ha b hb hab
  have haep : a.timestamp.isEpoch = true :=
    h a (mem_of_mem_dedupBy id l a (List.mem_of_mem_filter ha))
  have hbep : b.timestamp.isEpoch = true :=
    h b (mem_of_mem_dedupBy id l b (List.mem_of_mem_filter hb))
  exact convert_timestamp_inj_on_epoch a b haep hbep hab

theorem clean_ratings_data_idem (l : List RatingRow)
    (h : ∀ r ∈ l, r.timestamp.isEpoch = true) :
    clean_ratings_data (clean_ratings_data l) = clean_ratings_data l := by
  have hnodup := clean_ratings_data_nodup l h
  rw [clean_ratings_data_eq (clean_ratings_data l)]
  have hded : dedupBy id (clean_ratings_data l) = clean_ratings_data l :=
    dedupBy_eq_self id _ (by simpa using hnodup)
  rw [hded]
  have hval : (clean_ratings_data l).filter validRating
      = clean_ratings_data l := by
    rw [List.filter_eq_self]
    intro a ha
    obtain ⟨s, _, hvalid, rfl⟩ := mem_clean_ratings_data l a ha
    rw [validRating_convert]
    exact hvalid
  rw [hval]
  have hconv : ∀ a ∈ clean_ratings_data l, convert_timestamp a = a := by
    intro a ha
    obtain ⟨s, _, _, rfl⟩ := mem_clean_ratings_data l a ha
    exact convert_timestamp_eq_self _ (convert_timestamp_isInstant s)
  calc (clean_ratings_data l).map convert_timestamp
      = (clean_ratings_data l).map id := List.map_congr_left hconv
    _ = clean_ratings_data l := List.map_id _

/-- get_genres reads only the genre flag columns, so changing the title or
the derived columns of a row does not change it. -/
theorem get_genres_update (r : ItemRow) (t : String) (ry : Option Int)
    (g : Option String) :
    get_genres { r with movie_title := t, release_year := ry, genres := g }
      = get_genres r := rfl

theorem clean_item_row_item_id (r : ItemRow) :
    (clean_item_row r).item_id = r.item_id := rfl

theorem clean_item_row_idem (r : ItemRow) :
    clean_item_row (clean_item_row r) = clean_item_row r := by
  unfold clean_item_row
  ext <;> first | rfl | simp [pyStrip_idem]

theorem clean_items_data_idem (items : List ItemRow) :
    clean_items_data (clean_items_data items) = clean_items_data items := by
  unfold clean_items_data
  have hkeys : ((dedupBy ItemRow.item_id items).map clean_item_row
      |>.map ItemRow.item_id).Nodup := by
    rw [List.map_map]
    have hco : ItemRow.item_id ∘ clean_item_row = ItemRow.item_id :=
      funext (fun r => clean_item_row_item_id r)
    rw [hco]
    exact dedupBy_key_nodup ItemRow.item_id items
  rw [dedupBy_eq_self ItemRow.item_id _ hkeys, List.map_map,
    funext clean_item_row_idem (f := clean_item_row ∘ clean_item_row)]

theorem clean_user_row_user_id (r : UserRow) :
    (clean_user_row r).user_id = r.user_id := rfl

theorem clean_user_row_idem (r : UserRow) :
    clean_user_row (clean_user_row r) = clean_user_row r := by
  unfold clean_user_row
  ext <;> simp [pyStrip_strLower_pyStrip, strLower_idem, strUpper_idem]

theorem clean_users_data_idem (users : List UserRow) :
    clean_users_data (clean_users_data users) = clean_users_data users := by
  unfold clean_users_data
  have hkeys : ((dedupBy UserRow.user_id users).map clean_user_row
      |>.map UserRow.user_id).Nodup := by
    rw [List.map_map]
    have hco : UserRow.user_id ∘ clean_user_row = UserRow.user_id :=
      funext (fun r => clean_user_row_user_id r)
    rw [hco]
    exact dedupBy_key_nodup UserRow.user_id users
  rw [dedupBy_eq_self UserRow.user_id _ hkeys, List.map_map,
    funext clean_user_row_idem (f := clean_user_row ∘ clean_user_row)]

/-! ### Lemmas about the left joins -/

theorem filter_eq_find?_toList {α β : Type} (key : α → β) (k : β)
    (p : α → Bool) (hp : ∀ x, p x = true ↔ key x = k) (l : List α)
    (h : (l.map key).Nodup) : l.filter p = (l.find? p).toList := by
  induction l with
  | nil => rfl
  | cons a t ih =>
      simp only [List.map_cons, List.nodup_cons] at h
      by_cases ha : p a = true
      · rw [List.filter_cons, if_pos ha, List.find?_cons_of_pos _ ha]
        have ht : t.filter p = [] := by
          rw [List.filter_eq_nil_iff]
          intro b hb hpb
          apply h.1
          have h1 : key b = k := (hp b).mp hpb
          have h2 : key a = k := (hp a).mp ha
          rw [h2, ← h1]
          exact List.mem_map_of_mem key hb
        rw [ht]
        rfl
      · rw [List.filter_cons, if_neg ha, List.find?_cons_of_neg _ ha]
        exact ih h.2

theorem eq_of_key_eq_of_nodup {α β : Type} (key : α → β) (l : List α)
    (h : (l.map key).Nodup) (a b : α) (ha : a ∈ l) (hb : b ∈ l)
    (hk : key a = key b) : a = b := by
  induction l with
  | nil => cases ha
  | cons c t ih =>
      simp only [List.map_cons, List.nodup_cons] at h
      rcases List.mem_cons.mp ha with rfl | ha1
      · rcases List.mem_cons.mp hb with rfl | hb1
        · rfl
        · exact absurd (hk ▸ List.mem_map_of_mem key hb1) h.1
      · rcases List.mem_cons.mp hb with rfl | hb1
        · exact absurd (hk.symm ▸ List.mem_map_of_mem key ha1) h.1
        · exact ih h.2 ha1 hb1

theorem flatMap_singleton_eq_map {α β : Type} (l : List α) (f : α → List β)
    (g : α → β) (h : ∀ a ∈ l, f a = [g a]) : l.flatMap f = l.map g := by
  induction l with
  | nil => rfl
  | cons a t ih =>
      rw [List.flatMap_cons, List.map_cons, h a (List.mem_cons_self _ _),
        ih (fun b hb => h b (List.mem_cons_of_mem _ hb))]
      rfl

/-- The row built by the first left join for one rating row, given the
matching item row when there is one. -/
def merged_row (r : RatingRow) (oi : Option ItemRow) : MergedIRow :=
  match oi with
  | none =>
      { user_id := r.user_id, item_id := r.item_id, rating := r.rating,
        timestamp := r.timestamp, movie_title := none, release_year := none,
        genres := none }
  | some it =>
      { user_id := r.user_id, item_id := r.item_id, rating := r.rating,
        timestamp := r.timestamp, movie_title := some it.movie_title,
        release_year := it.release_year, genres := it.genres }

/-- The row built by the second left join for one intermediate row, given
the matching user row when there is one. -/
def final_row (m : MergedIRow) (ou : Option UserRow) : FinalRow :=
  match ou with
  | none =>
      { user_id := m.user_id, item_id := m.item_id, rating := m.rating,
        timestamp := m.timestamp, movie_title := m.movie_title,
        release_year := m.release_year, genres := m.genres, age := none,
        gender := none, occupation := none, age_group := none }
  | some u =>
      { user_id := m.user_id, item_id := m.item_id, rating := m.rating,
        timestamp := m.timestamp, movie_title := m.movie_title,
        release_year := m.release_year, genres := m.genres,
        age := some u.age, gender := some u.gender,
        occupation := some u.occupation, age_group := u.age_group }

/-- The integrated row of one rating row: the item and user lookups by key,
with null columns where the lookup finds nothing. -/
def integrated_row (r : RatingRow) (oi : Option ItemRow)
    (ou : Option UserRow) : FinalRow :=
  final_row (merged_row r oi) ou

theorem merged_row_user_id (r : RatingRow) (oi : Option ItemRow) :
    (merged_row r oi).user_id = r.user_id := by
  cases oi <;> rfl

theorem merge_items_eq (ratings : List RatingRow) (items : List ItemRow)
    (h : (items.map ItemRow.item_id).Nodup) :
    merge_items ratings items = ratings.map (fun r =>
      merged_row r (items.find? (fun it => it.item_id == r.item_id))) := by
  unfold merge_items
  apply flatMap_singleton_eq_map
  intro r _
  rw [filter_eq_find?_toList ItemRow.item_id r.item_id _
    (fun x => by simp) items h]
  cases items.find? (fun it => it.item_id == r.item_id) with
  | none => rfl
  | some it => rfl

theorem merge_users_eq (rows : List MergedIRow) (users : List UserRow)
    (h : (users.map UserRow.user_id).Nodup) :
    merge_users rows users = rows.map (fun m =>
      final_row m (users.find? (fun u => u.user_id == m.user_id))) := by
  unfold merge_users
  apply flatMap_singleton_eq_map
  intro m _
  rw [filter_eq_find?_toList UserRow.user_id m.user_id _
    (fun x => by simp) users h]
  cases users.find? (fun u => u.user_id == m.user_id) with
  | none => rfl
  | some u => rfl

theorem integrate_data_eq (ratings : List RatingRow) (items : List ItemRow)
    (users : List UserRow) (hi : (items.map ItemRow.item_id).Nodup)
    (hu : (users.map UserRow.user_id).Nodup) :
    integrate_data ratings items users = ratings.map (fun r =>
      integrated_row r (items.find? (fun it => it.item_id == r.item_id))
        (users.find? (fun u => u.user_id == r.user_id))) := by
  unfold integrate_data
  rw [merge_items_eq ratings items hi, merge_users_eq _ users hu,
    List.map_map]
  apply List.map_congr_left
  intro r _
  simp only [Function.comp_apply, integrated_row, merged_row_user_id]

/-! ### Lemmas about the pivot -/

theorem mem_svd_data (df : List FinalRow) (u i rat : Int) :
    (u, i, rat) ∈ svd_data df
      ↔ ∃ r ∈ df, r.user_id = u ∧ r.item_id = i ∧ r.rating = rat := by
  unfold svd_data
  rw [List.mem_map]
  constructor
  · rintro ⟨r, hr, heq⟩
    obtain ⟨h1, h2, h3⟩ := Prod.mk.injEq .. ▸ heq
    exact ⟨r, hr, h1, by
      have := (Prod.mk.injEq ..).mp (congrArg Prod.snd heq)
      exact ⟨this.1, this.2⟩⟩
  · rintro ⟨r, hr, h1, h2, h3⟩
    exact ⟨r, hr, by rw [h1, h2, h3]⟩

theorem pair_of_match (r : FinalRow) (u i : Int)
    (h : (r.user_id == u && r.item_id == i) = true) :
    r.user_id = u ∧ r.item_id = i := by
  simp only [Bool.and_eq_true, beq_iff_eq] at h
  exact h

theorem ratings_for_eq (df : List FinalRow) (u i : Int)
    (h : (df.map (fun r => (r.user_id, r.item_id))).Nodup) :
    ratings_for df u i
      = ((df.find? (fun r => r.user_id == u && r.item_id == i)).toList).map
          FinalRow.rating := by
  unfold ratings_for
  rw [filter_eq_find?_toList (fun r => (r.user_id, r.item_id)) (u, i) _
    (fun x => by simp [Prod.ext_iff]) df h]

theorem pivot_cell_single (df : List FinalRow) (u i : Int) (v : Int)
    (h : ratings_for df u i = [v]) : pivot_cell df u i = (v : ℚ) := by
  unfold pivot_cell
  rw [h]
  simp

theorem pivot_cell_empty (df : List FinalRow) (u i : Int)
    (h : ratings_for df u i = []) : pivot_cell df u i = 0 := by
  unfold pivot_cell
  rw [h]

/-! ### Lemmas about sparsity -/

theorem nunique_eq_toFinset_card (l : List Int) :
    nunique l = l.toFinset.card := by
  unfold nunique
  have h1 : (dedupBy id l).toFinset = l.toFinset := by
    ext x
    simp [List.mem_toFinset, mem_dedupBy_id]
  rw [← List.toFinset_card_of_nodup (nodup_dedupBy_id l), h1]

/-- The sparsity formula as the specification words it: one minus the
number of triples over the product of the distinct user and item counts,
as a percentage. -/
def spec_sparsity_formula (n users items : Nat) : ℚ :=
  (1 - (n : ℚ) / ((users : ℚ) * (items : ℚ))) * 100

/-! ### Lemmas about the loader -/

/-- A file is loadable when it is present and each of its rows has exactly
the declared number of columns. -/
def table_ok (content : Option (List (List String))) (arity : Nat) : Prop :=
  ∃ rows, content = some rows ∧ ∀ row ∈ rows, row.length = arity

/-- The whole input is loadable: all three files present with the declared
column counts (u.data 4, u.item 24, u.user 5). -/
def fs_wellformed (fs : FS) : Prop :=
  table_ok fs.u_data 4 ∧ table_ok fs.u_item 24 ∧ table_ok fs.u_user 5

theorem loadTable_isOk (name : String) (content : Option (List (List String)))
    (arity : Nat) :
    (∃ rows, loadTable name content arity = .ok rows) ↔ table_ok content arity := by
  cases content with
  | none => simp [loadTable, table_ok]
  | some rows =>
      by_cases h : rows.all (fun row => row.length == arity)
      · rw [loadTable, if_pos h]
        simp only [table_ok, Except.ok.injEq, Option.some.injEq]
        constructor
        · intro _
          refine ⟨rows, rfl, ?_⟩
          intro row hrow
          have := List.all_eq_true.mp h row hrow
          simpa using this
        · intro _
          exact ⟨rows, rfl⟩
      · rw [loadTable, if_neg h]
        simp only [table_ok, Option.some.injEq]
        constructor
        · rintro ⟨r, hr⟩
          cases hr
        · rintro ⟨rows2, heq, hall⟩
          cases heq
          apply absurd _ h
          rw [List.all_eq_true]
          intro row hrow
          simpa using hall row hrow

theorem except_error_iff_not_ok {ε α : Type} (x : Except ε α) :
    (∃ e, x = .error e) ↔ ¬ ∃ a, x = .ok a := by
  cases x <;> simp

theorem load_raw_data_ok_iff (fs : FS) :
    (∃ out, load_raw_data fs = .ok out) ↔ fs_wellformed fs := by
  unfold fs_wellformed
  rw [← loadTable_isOk "u.data" fs.u_data 4,
    ← loadTable_isOk "u.item" fs.u_item 24,
    ← loadTable_isOk "u.user" fs.u_user 5]
  unfold load_raw_data
  cases hd : loadTable "u.data" fs.u_data 4 with
  | error e => simp [hd]
  | ok datRows =>
      cases hi : loadTable "u.item" fs.u_item 24 with
      | error e => simp [hd, hi]
      | ok itemRows =>
          cases hu : loadTable "u.user" fs.u_user 5 with
          | error e => simp [hd, hi, hu]
          | ok userRows => simp [hd, hi, hu]

/-! ### Specification-side definitions used to state the claims -/

/-- The age buckets exactly as the specification words them: left-closed,
right-open intervals below 18, [18,25), [25,35), [35,50), [50,65), and
[65, infinity). -/
def age_bucket (age : Int) : String :=
  if age < 18 then "Under 18"
  else if 18 ≤ age ∧ age < 25 then "18-24"
  else if 25 ≤ age ∧ age < 35 then "25-34"
  else if 35 ≤ age ∧ age < 50 then "35-49"
  else if 50 ≤ age ∧ age < 65 then "50-64"
  else "65+"

/-- The genre names of a row whose flag is 1, written out field by field in
the declaration order of the genre columns, the unknown flag excluded. -/
def active_genre_names (r : ItemRow) : List String :=
  (if r.Action = 1 then ["Action"] else []) ++
  (if r.Adventure = 1 then ["Adventure"] else []) ++
  (if r.Animation = 1 then ["Animation"] else []) ++
  (if r.Childrens = 1 then ["Children\x27s"] else []) ++
  (if r.Comedy = 1 then ["Comedy"] else []) ++
  (if r.Crime = 1 then ["Crime"] else []) ++
  (if r.Documentary = 1 then ["Documentary"] else []) ++
  (if r.Drama = 1 then ["Drama"] else []) ++
  (if r.Fantasy = 1 then ["Fantasy"] else []) ++
  (if r.FilmNoir = 1 then ["Film-Noir"] else []) ++
  (if r.Horror = 1 then ["Horror"] else []) ++
  (if r.Musical = 1 then ["Musical"] else []) ++
  (if r.Mystery = 1 then ["Mystery"] else []) ++
  (if r.Romance = 1 then ["Romance"] else []) ++
  (if r.SciFi = 1 then ["Sci-Fi"] else []) ++
  (if r.Thriller = 1 then ["Thriller"] else []) ++
  (if r.War = 1 then ["War"] else []) ++
  (if r.Western = 1 then ["Western"] else [])

/-! ### Concrete example tables -/

/-- A small raw ratings table: a duplicated valid row and an out-of-range
row. -/
def ratingsExample : List RatingRow :=
  [⟨1, 10, 3, .epoch 100⟩, ⟨1, 10, 3, .epoch 100⟩, ⟨2, 20, 9, .epoch 200⟩]

/-- The surviving row of the example after cleaning. -/
def cleanedExampleRow : RatingRow := ⟨1, 10, 3, .instant 100⟩

/-- An item with every genre flag 0. -/
def allZeroFlagsItem : ItemRow :=
  { item_id := 1, movie_title := "Some Movie (1995)", release_date := none,
    video_release_date := none, IMDb_URL := none, unknown := 0, Action := 0,
    Adventure := 0, Animation := 0, Childrens := 0, Comedy := 0, Crime := 0,
    Documentary := 0, Drama := 0, Fantasy := 0, FilmNoir := 0, Horror := 0,
    Musical := 0, Mystery := 0, Romance := 0, SciFi := 0, Thriller := 0,
    War := 0, Western := 0 }

/-- An item whose only active genre flag is Action. -/
def actionOnlyItem : ItemRow :=
  { allZeroFlagsItem with item_id := 2, Action := 1 }

/-- A small items table with a duplicate key and an unstripped title. -/
def itemsExample : List ItemRow :=
  [allZeroFlagsItem, actionOnlyItem,
   { allZeroFlagsItem with movie_title := " Heat (1995) " }]

/-- A small users table with a duplicate key and unnormalised fields. -/
def usersExample : List UserRow :=
  [{ user_id := 1, age := 30, gender := "m", occupation := " Engineer ",
     zip_code := "12345" },
   { user_id := 1, age := 31, gender := "f", occupation := "doctor",
     zip_code := "54321" },
   { user_id := 2, age := 17, gender := "F", occupation := "student",
     zip_code := "00000" }]

/-! ### The claims -/

/-- C1: for every input ratings table, the cleaner returns a table in which
every rating lies in [1,5], equal to deduplicate-then-range-filter-then-
timestamp-convert, with every timestamp converted to an instant, every
output row a timestamp-converted copy of an input row with its rating
unchanged (out-of-range rows are dropped, not modified), and with no
duplicate output rows when the input timestamps are raw epoch values. -/
theorem C1_ratings_cleaner_contract (l : List RatingRow) :
    (∀ r ∈ clean_ratings_data l, 1 ≤ r.rating ∧ r.rating ≤ 5) ∧
    clean_ratings_data l
      = ((dedupBy id l).filter validRating).map convert_timestamp ∧
    (∀ r ∈ clean_ratings_data l, r.timestamp.isInstant = true) ∧
    (∀ r ∈ clean_ratings_data l,
      ∃ s ∈ l, r = convert_timestamp s ∧ r.rating = s.rating) ∧
    ((∀ r ∈ l, r.timestamp.isEpoch = true) → (clean_ratings_data l).Nodup) := by
  refine ⟨?_, clean_ratings_data_eq l, ?_, ?_, clean_ratings_data_nodup l⟩
  · intro r hr
    obtain ⟨s, _, hvalid, rfl⟩ := mem_clean_ratings_data l r hr
    rw [validRating] at hvalid
    simp only [Bool.and_eq_true, decide_eq_true_eq] at hvalid
    rw [convert_timestamp_rating]
    exact hvalid
  · intro r hr
    obtain ⟨s, _, _, rfl⟩ := mem_clean_ratings_data l r hr
    exact convert_timestamp_isInstant s
  · intro r hr
    obtain ⟨s, hs, _, rfl⟩ := mem_clean_ratings_data l r hr
    exact ⟨s, mem_of_mem_dedupBy id l s hs, rfl, rfl⟩

/-- Witness for C1 at a concrete table: the surviving cleaned row has its
rating in range and an instant timestamp, and the cleaned table has no
duplicates. -/
theorem C1_ratings_cleaner_contract_witness :
    (1 ≤ cleanedExampleRow.rating ∧ cleanedExampleRow.rating ≤ 5) ∧
    cleanedExampleRow.timestamp.isInstant = true ∧
    (clean_ratings_data ratingsExample).Nodup :=
  ⟨(C1_ratings_cleaner_contract ratingsExample).1 cleanedExampleRow (by decide),
   (C1_ratings_cleaner_contract ratingsExample).2.2.1 cleanedExampleRow
     (by decide),
   (C1_ratings_cleaner_contract ratingsExample).2.2.2.2 (by decide)⟩

/-- C4: the age derivation realises the left-closed right-open buckets of
the specification, and maps the seven boundary test ages as claimed. -/
theorem C4_age_group_buckets :
    (∀ age : Int, categorize_age age = age_bucket age) ∧
    categorize_age 17 = "Under 18" ∧ categorize_age 18 = "18-24" ∧
    categorize_age 24 = "18-24" ∧ categorize_age 25 = "25-34" ∧
    categorize_age 49 = "35-49" ∧ categorize_age 50 = "50-64" ∧
    categorize_age 65 = "65+" := by
  refine ⟨?_, by decide, by decide, by decide, by decide, by decide,
    by decide, by decide⟩
  intro age
  unfold categorize_age age_bucket
  split_ifs <;> first | rfl | omega

theorem filterMap_genre_cons (row : ItemRow) (n : String)
    (f : ItemRow → Int) (rest : List (String × (ItemRow → Int))) :
    ((n, f) :: rest).filterMap
        (fun p => if p.2 row = 1 then some p.1 else none)
      = (if f row = 1 then [n] else []) ++
        rest.filterMap (fun p => if p.2 row = 1 then some p.1 else none) := by
  by_cases h : f row = 1 <;> simp [List.filterMap_cons, h]

theorem get_genres_eq_active (r : ItemRow) :
    (genre_cols.drop 1).filterMap
        (fun p => if p.2 r = 1 then some p.1 else none)
      = active_genre_names r := by
  simp only [genre_cols, List.drop_succ_cons, List.drop_zero,
    filterMap_genre_cons, List.filterMap_nil, List.append_nil,
    active_genre_names, List.append_assoc]

/-- C5: the genres string is the comma-join of the declared genre names
(unknown excluded, declaration order) whose flag is 1, with the literal
Unknown when no flag is set; in particular an all-zero row yields Unknown
and an Action-only row yields Action. -/
theorem C5_genre_string :
    (∀ r : ItemRow, get_genres r =
      if active_genre_names r = [] then "Unknown"
      else String.intercalate ", " (active_genre_names r)) ∧
    get_genres allZeroFlagsItem = "Unknown" ∧
    get_genres actionOnlyItem = "Action" := by
  refine ⟨?_, by decide, by decide⟩
  intro r
  unfold get_genres
  rw [get_genres_eq_active]
  cases h : active_genre_names r with
  | nil => rfl
  | cons a t => rfl

/-- A deduplicated items table for the join examples. -/
def itemsJoined : List ItemRow := [allZeroFlagsItem, actionOnlyItem]

/-- A deduplicated users table for the join examples. -/
def usersJoined : List UserRow :=
  [{ user_id := 1, age := 30, gender := "M", occupation := "engineer",
     zip_code := "12345", age_group := some "25-34" }]

/-- Ratings for the join examples: one row matches an item and the user,
one row matches neither. -/
def ratingsJoined : List RatingRow :=
  [⟨1, 1, 3, .instant 5⟩, ⟨2, 99, 4, .instant 6⟩]

/-- C2: with items deduplicated by item_id and users deduplicated by
user_id, the two left joins pair every rating row with its unique key
lookups (null columns when a lookup finds nothing), so the integrated
table has exactly one row per rating row. -/
theorem C2_integration_cardinality (ratings : List RatingRow)
    (items : List ItemRow) (users : List UserRow)
    (hi : (items.map ItemRow.item_id).Nodup)
    (hu : (users.map UserRow.user_id).Nodup) :
    integrate_data ratings items users = ratings.map (fun r =>
      integrated_row r (items.find? (fun it => it.item_id == r.item_id))
        (users.find? (fun u => u.user_id == r.user_id))) ∧
    (integrate_data ratings items users).length = ratings.length := by
  have h := integrate_data_eq ratings items users hi hu
  exact ⟨h, by rw [h, List.length_map]⟩

/-- Witness for C2 at concrete tables containing an unmatched rating row. -/
theorem C2_integration_cardinality_witness :
    (integrate_data ratingsJoined itemsJoined usersJoined).length
      = ratingsJoined.length :=
  (C2_integration_cardinality ratingsJoined itemsJoined usersJoined
    (by decide) (by decide)).2

/-- A final table with one (user, item) pair. -/
def mkFinalRow (u i rat : Int) : FinalRow :=
  { user_id := u, item_id := i, rating := rat, timestamp := .instant 0,
    movie_title := none, release_year := none, genres := none, age := none,
    gender := none, occupation := none, age_group := none }

/-- An integrated table in which the pair (1, 1) occurs twice with
different ratings. -/
def dupPairTable : List FinalRow := [mkFinalRow 1 1 3, mkFinalRow 1 1 5]

/-- An integrated table with unique (user, item) pairs. -/
def singlePairTable : List FinalRow := [mkFinalRow 1 1 3, mkFinalRow 2 1 4]

theorem pivot_cell_two (df : List FinalRow) (u i : Int) (a b : Int)
    (h : ratings_for df u i = [a, b]) :
    pivot_cell df u i = ((a : ℚ) + (b : ℚ)) / 2 := by
  unfold pivot_cell
  rw [h]
  simp

theorem dupPairTable_cell : pivot_cell dupPairTable 1 1 = 4 := by
  rw [pivot_cell_two dupPairTable 1 1 3 5 rfl]
  norm_num

/-- C3 counterexample: with a duplicated (user, item) pair the pivot cell
is the mean of the group, so it does not equal the rating of a triple
that is present in the triple list. -/
theorem C3_matrix_cell_counterexample :
    (1, 1, 3) ∈ svd_data dupPairTable ∧
    pivot_cell dupPairTable 1 1 ≠ (3 : ℚ) := by
  refine ⟨by decide, ?_⟩
  rw [dupPairTable_cell]
  norm_num

/-- C3 (amended): when the integrated table has at most one row per
(user_id, item_id) pair, every matrix cell equals the rating of the triple
for that pair when one is present and 0 when none is present. -/
theorem C3_matrix_cell_unique_pairs (df : List FinalRow) (u i : Int)
    (h : (df.map (fun r => (r.user_id, r.item_id))).Nodup) :
    (∀ rat : Int, (u, i, rat) ∈ svd_data df → pivot_cell df u i = (rat : ℚ)) ∧
    ((∀ rat : Int, (u, i, rat) ∉ svd_data df) → pivot_cell df u i = 0) := by
  have hre := ratings_for_eq df u i h
  constructor
  · intro rat hmem
    obtain ⟨r, hr, h1, h2, h3⟩ := (mem_svd_data df u i rat).mp hmem
    cases hf : df.find? (fun r => r.user_id == u && r.item_id == i) with
    | none =>
        exfalso
        have hnone := List.find?_eq_none.mp hf r hr
        simp [h1, h2] at hnone
    | some row =>
        have hrowmem := List.mem_of_find?_eq_some hf
        have hps : (row.user_id == u && row.item_id == i) = true :=
          @List.find?_some FinalRow
            (fun r => r.user_id == u && r.item_id == i) row df hf
        have hrowp := pair_of_match row u i hps
        have heq : r = row := eq_of_key_eq_of_nodup _ df h r row hr hrowmem
          (by rw [h1, h2, hrowp.1, hrowp.2])
        subst heq
        have hsingle : ratings_for df u i = [r.rating] := by rw [hre, hf]; rfl
        rw [pivot_cell_single df u i r.rating hsingle, h3]
  · intro hnone
    cases hf : df.find? (fun r => r.user_id == u && r.item_id == i) with
    | some row =>
        exfalso
        have hrowmem := List.mem_of_find?_eq_some hf
        have hps : (row.user_id == u && row.item_id == i) = true :=
          @List.find?_some FinalRow
            (fun r => r.user_id == u && r.item_id == i) row df hf
        have hrowp := pair_of_match row u i hps
        exact hnone row.rating ((mem_svd_data df u i row.rating).mpr
          ⟨row, hrowmem, hrowp.1, hrowp.2, rfl⟩)
    | none =>
        apply pivot_cell_empty
        rw [hre, hf]
        rfl

/-- Witness for the amended C3 at a concrete table: a present pair gives
its rating, an absent pair gives 0. -/
theorem C3_matrix_cell_unique_pairs_witness :
    pivot_cell singlePairTable 1 1 = (3 : ℚ) ∧
    pivot_cell singlePairTable 5 5 = 0 :=
  ⟨(C3_matrix_cell_unique_pairs singlePairTable 1 1 (by decide)).1 3
     (by decide),
   (C3_matrix_cell_unique_pairs singlePairTable 5 5 (by decide)).2 (by
     intro rat hmem
     have hsvd : svd_data singlePairTable = [(1, 1, 3), (2, 1, 4)] := rfl
     rw [hsvd] at hmem
     rcases List.mem_cons.mp hmem with h1 | h1
     · have h5 : (5 : Int) = 1 := congrArg Prod.fst h1
       exact absurd h5 (by decide)
     · rcases List.mem_cons.mp h1 with h2 | h2
       · have h5 : (5 : Int) = 2 := congrArg Prod.fst h2
         exact absurd h5 (by decide)
       · cases h2)⟩

/-- C6: the computed sparsity is one minus the triple count over the
product of the distinct user and item counts, as a percentage, and at the
canonical dataset sizes (100000 triples, 943 users, 1682 items) its value
lies strictly between 93.69 and 93.70 percent. -/
theorem C6_sparsity_formula (final_data : List FinalRow) :
    (sparsity final_data = spec_sparsity_formula (svd_data final_data).length
      (((svd_data final_data).map (fun t => t.1)).toFinset.card)
      (((svd_data final_data).map (fun t => t.2.1)).toFinset.card)) ∧
    (9369 / 100 : ℚ) < spec_sparsity_formula 100000 943 1682 ∧
    spec_sparsity_formula 100000 943 1682 < (937 / 10 : ℚ) := by
  refine ⟨?_, by norm_num [spec_sparsity_formula],
    by norm_num [spec_sparsity_formula]⟩
  simp only [sparsity, spec_sparsity_formula, nunique_eq_toFinset_card]

/-- C7: each per-table cleaner is idempotent; for the ratings cleaner the
input is a raw table whose timestamps are epoch seconds, as loaded. -/
theorem C7_cleaners_idempotent (ratings : List RatingRow)
    (items : List ItemRow) (users : List UserRow)
    (h : ∀ r ∈ ratings, r.timestamp.isEpoch = true) :
    clean_ratings_data (clean_ratings_data ratings)
        = clean_ratings_data ratings ∧
    clean_items_data (clean_items_data items) = clean_items_data items ∧
    clean_users_data (clean_users_data users) = clean_users_data users :=
  ⟨clean_ratings_data_idem ratings h, clean_items_data_idem items,
   clean_users_data_idem users⟩

/-- Witness for C7 at concrete raw tables with duplicates and unnormalised
fields. -/
theorem C7_cleaners_idempotent_witness :
    clean_ratings_data (clean_ratings_data ratingsExample)
        = clean_ratings_data ratingsExample ∧
    clean_items_data (clean_items_data itemsExample)
        = clean_items_data itemsExample ∧
    clean_users_data (clean_users_data usersExample)
        = clean_users_data usersExample :=
  C7_cleaners_idempotent ratingsExample itemsExample usersExample (by decide)

/-- A u.item row of 24 fields whose date field is not parseable. -/
def itemFieldsExample : List String :=
  ["1", "Toy Story (1995)", "garbage date", "", "http site",
   "0", "0", "0", "0", "0", "0", "0", "0", "0", "0", "0", "0", "0", "0",
   "0", "0", "0", "0", "0"]

/-- C8: the release date treatment first strips every character outside
the class [0-9A-Za-z-] and then parses day-first; any unparseable value
yields none, and a well-formed items file loads whatever its date fields
hold. -/
theorem C8_release_date_tolerance :
    (∀ s : String,
      parse_release_date s = parseDateDayfirst (clean_date_str s)) ∧
    (∀ s : String, ∀ c ∈ (clean_date_str s).data, keepDateChar c = true) ∧
    (∀ rows : List (List String),
      rows.all (fun row => row.length == 24) = true →
      ∃ out, loadTable "u.item" (some rows) 24 = Except.ok out) ∧
    parse_release_date "01-Jan-1995" = some ⟨1995, 1, 1⟩ ∧
    parse_release_date "NotADate" = none := by
  refine ⟨fun s => rfl, ?_, ?_, by decide, by decide⟩
  · intro s c hc
    exact List.of_mem_filter hc
  · intro rows h
    rw [loadTable, if_pos h]
    exact ⟨rows, rfl⟩

/-- Witness for C8: the cleaned date characters are in the allowed class
at a concrete input, and a concrete well-formed row with an unparseable
date loads. -/
theorem C8_release_date_tolerance_witness :
    keepDateChar 'J' = true ∧
    (∃ out, loadTable "u.item" (some [itemFieldsExample]) 24
      = Except.ok out) :=
  ⟨C8_release_date_tolerance.2.1 "01-Jan-1995" 'J' (by decide),
   C8_release_date_tolerance.2.2.1 [itemFieldsExample] (by decide)⟩

/-- C9: the load fails exactly when a required file is absent or a file
has rows off the declared column counts, and a load failure aborts the
pipeline with the same error and no output. -/
theorem C9_loader_failure (fs : FS) :
    ((∃ e, load_raw_data fs = .error e) ↔ ¬ fs_wellformed fs) ∧
    (∀ e, load_raw_data fs = .error e → run_pipeline fs = .error e) := by
  constructor
  · rw [except_error_iff_not_ok, load_raw_data_ok_iff]
  · intro e he
    unfold run_pipeline
    rw [he]

/-- The file system with the ratings file absent. -/
def fsMissing : FS := ⟨none, some [], some []⟩

/-- Witness for C9: with the ratings file absent the pipeline aborts with
the missing file error. -/
theorem C9_loader_failure_witness :
    run_pipeline fsMissing = .error (.missingFile "u.data") :=
  (C9_loader_failure fsMissing).2 (.missingFile "u.data") rfl

/-- C10: when one or more rows share a (user, item) pair, the pivot cell is
the arithmetic mean of the ratings of the group; at the concrete duplicated
table the cell is 4, which is neither the first nor the last rating of the
group. -/
theorem C10_pivot_mean :
    (∀ (df : List FinalRow) (u i : Int), ratings_for df u i ≠ [] →
      pivot_cell df u i =
        ((ratings_for df u i).map (fun v => (v : ℚ))).sum
          / ((ratings_for df u i).length : ℚ)) ∧
    pivot_cell dupPairTable 1 1 = 4 ∧ (4 : ℚ) ≠ 3 ∧ (4 : ℚ) ≠ 5 := by
  refine ⟨?_, dupPairTable_cell, by norm_num, by norm_num⟩
  intro df u i h
  cases hr : ratings_for df u i with
  | nil => exact absurd hr h
  | cons v vs =>
      unfold pivot_cell
      rw [hr]

/-- Witness for C10 at the duplicated table: the mean formula applied to
the concrete group. -/
theorem C10_pivot_mean_witness :
    pivot_cell dupPairTable 1 1 =
      ((ratings_for dupPairTable 1 1).map (fun v => (v : ℚ))).sum
        / ((ratings_for dupPairTable 1 1).length : ℚ) :=
  C10_pivot_mean.1 dupPairTable 1 1 (by decide)

end MovieLens
